import Mathlib

set_option maxHeartbeats 1000000

/-!
Verification of the `clapper` command-line parsing library (clapper.go).

This file gives a shallow embedding of the parsing core: token
classification, token normalization (`formatCommandValues`,
`detectSplitCombined`), command resolution (`isRootCommand`), the binder
(`Parse` main loop, flag and positional-argument binding), the type
coercer (`convert`, with faithful models of `strconv.ParseBool`,
`strconv.Atoi` and `time.Parse` on the layout used by the code), and the
validator (`validateParams`, `validateElement`).

Modelling conventions:
- Go maps with pointer-valued entries mutated in place are modelled as
  association lists updated functionally; `Parse` threads the
  `CommandConfig` state explicitly.
- Go byte lengths are modelled as character counts; all tokens appearing
  in the claims are ASCII, where the two coincide.
- Error values keep the constant skeleton of the Go error message;
  `%v`-formatted payloads are dropped.  Raw `strconv`/`time` errors that
  `Parse` passes through verbatim are modelled by `ParseError.convErr`.
- A Go nil-pointer dereference (reachable only through registries that
  violate the registration API's invariants) is modelled by
  `ParseError.goPanic`.
- `float64` and `time.Duration` default values are outside the model;
  no claim mentions them.
-/

namespace Clapper

/-- Calendar timestamp as produced by Go `time.Parse` on the layout
`2006-01-02 03:04` (year, month, day, hour, minute; no seconds or zone). -/
structure Timestamp where
  year : Nat
  month : Nat
  day : Nat
  hour : Nat
  minute : Nat
deriving DecidableEq, Repr

/-- Scalar runtime values of the supported kinds used by the claims. -/
inductive Value where
  | vBool (b : Bool)
  | vStr (s : String)
  | vInt (n : Int)
  | vTime (t : Timestamp)
deriving DecidableEq, Repr

/-- Runtime type tags, modelling `reflect.Kind` discrimination in `convert`
and `validateElement`. -/
inductive Kind where
  | kBool
  | kStr
  | kInt
  | kTime
deriving DecidableEq, Repr

/-- Runtime type of a value (Go `reflect.TypeOf` on a scalar). -/
def Value.kind : Value → Kind
  | .vBool _ => .kBool
  | .vStr _ => .kStr
  | .vInt _ => .kInt
  | .vTime _ => .kTime

/-- A declaration's `defaultValue interface{}`: either a single scalar or a
slice (choice set).  A Go slice's static element type exists even when the
slice is empty, hence the explicit `Kind` on `choices`. -/
inductive Default where
  | scalar (v : Value)
  | choices (k : Kind) (vs : List Value)
deriving DecidableEq, Repr

/-- Element type of a default: `reflect.TypeOf(defaults)`, taking `.Elem()`
when the kind is `Slice` (first lines of `convert`). -/
def Default.elemKind : Default → Kind
  | .scalar v => v.kind
  | .choices k _ => k

/-- A bound `value interface{}` field: a scalar, or a slice accumulated for
a variadic argument. -/
inductive BoundValue where
  | single (v : Value)
  | list (vs : List Value)
deriving DecidableEq, Repr

/-- The `Arg` struct: name, variadic marker, default value, and the bound
value (`none` models Go `nil`). -/
structure Arg where
  name : String
  isVariadic : Bool := false
  defaultValue : Default
  value : Option BoundValue := none
deriving DecidableEq, Repr

/-- The `Flag` struct (an `Arg` plus a short name), flattened. -/
structure Flag where
  name : String
  shortName : String := ""
  isVariadic : Bool := false
  defaultValue : Default
  value : Option BoundValue := none
deriving DecidableEq, Repr

/-- View of a flag as the embedded `Arg` (Go `flag.Arg`). -/
def Flag.toArg (f : Flag) : Arg :=
  { name := f.name, isVariadic := f.isVariadic,
    defaultValue := f.defaultValue, value := f.value }

/-- Errors returned by `Parse`.  `unknownCommand`, `unknownFlag` and
`badArgument` model the three exported error types; `convErr` models a raw
`strconv`/`time` conversion error passed through unchanged; `goPanic`
models a nil-pointer dereference. -/
inductive ParseError where
  | unknownCommand (name : String)
  | unknownFlag (name : String)
  | badArgument (argName : String) (message : String)
  | convErr (token : String)
  | goPanic
deriving DecidableEq, Repr

/-- The `CommandConfig` struct. -/
structure CommandConfig where
  name : String
  flags : List (String × Flag) := []
  flagsShort : List (String × String) := []
  args : List (String × Arg) := []
  argNames : List String := []
deriving DecidableEq, Repr

/-- The registry: command name to command config. -/
def Registry := List (String × CommandConfig)

/-- Go map lookup on an association list. -/
def assocLookup {α : Type} (l : List (String × α)) (k : String) : Option α :=
  match l.find? (fun p => p.1 == k) with
  | some p => some p.2
  | none => none

/-- Replace the entry at a key (models in-place mutation through a map's
pointer value). -/
def assocUpdate {α : Type} (l : List (String × α)) (k : String) (v : α) :
    List (String × α) :=
  l.map (fun p => if p.1 == k then (p.1, v) else p)

/-- Update one flag of a config. -/
def updateFlag (cfg : CommandConfig) (k : String) (f : Flag) : CommandConfig :=
  { cfg with flags := assocUpdate cfg.flags k f }

/-- Update one positional argument of a config. -/
def updateArg (cfg : CommandConfig) (k : String) (a : Arg) : CommandConfig :=
  { cfg with args := assocUpdate cfg.args k a }

/-! ## String helpers (Go `strings` package operations used by the code) -/

/-- Go `strings.HasPrefix`. -/
def goHasPfx (s p : String) : Bool :=
  p.data.isPrefixOf s.data

/-- Go `strings.HasSuffix`. -/
def goHasSfx (s p : String) : Bool :=
  p.data.isSuffixOf s.data

/-- Go `len` of a token (byte length; character count for the ASCII tokens
in scope). -/
def strLen (s : String) : Nat := s.data.length

/-- Go `strings.TrimLeft(value, "-")`. -/
def trimLeftDashes (s : String) : String :=
  ⟨s.data.dropWhile (fun c => c == '-')⟩

/-- Go `strings.TrimRight(value, ".")` (used with cutset `"..."`, which
removes every trailing dot). -/
def trimRightDots (s : String) : String :=
  ⟨(s.data.reverse.dropWhile (fun c => c == '.')).reverse⟩

/-- Go `name[3:]` on a string (byte slicing; character slicing here). -/
def strDrop (s : String) (n : Nat) : String := ⟨s.data.drop n⟩

/-- Go `strings.Contains(s, "=")` for a one-character substring. -/
def containsChar (s : String) (c : Char) : Bool := s.data.contains c

/-- Go `strings.Split(value, sep)` for a one-character separator: splits on
every occurrence, keeping empty parts. -/
def splitOnChar (c : Char) : List Char → List (List Char)
  | [] => [[]]
  | a :: rest =>
    match splitOnChar c rest with
    | [] => [[]]
    | h :: t => if a == c then [] :: h :: t else (a :: h) :: t

/-- Go condition `strings.Trim(part, " ") != ""`: the string contains some
non-space character. -/
def hasNonSpace (s : String) : Bool := s.data.any (fun c => c ≠ ' ')

/-- Go `strings.ReplaceAll(value, " ", "")`. -/
def removeWhitespaces (s : String) : String :=
  ⟨s.data.filter (fun c => c ≠ ' ')⟩

/-- Go `strings.Trim(value, "")`: the cutset is empty, so this is the
identity (as in the source). -/
def trimWhitespaces (s : String) : String := s

/-! ## Token classifier -/

/-- A token is a flag iff it has length at least 2 and starts with `-`. -/
def isFlag (value : String) : Bool :=
  decide (strLen value ≥ 2) && goHasPfx value "-"

/-- A token is a short flag iff it is a flag of length exactly 2 not
starting with `--`. -/
def isShortFlag (value : String) : Bool :=
  isFlag value && decide (strLen value = 2) && !goHasPfx value "--"

/-- Structurally malformed flag detection (`isUnknownFlag` in the source). -/
def isUnknownFlag (value : String) : Bool :=
  if strLen value ≥ 2 then
    if strLen value = 2 then
      !goHasPfx value "-" || goHasPfx value "--"
    else
      !goHasPfx value "--" || goHasPfx value "---"
  else
    false

/-- A name declares a variadic argument iff it is not a flag and ends with
`...`; the returned name has all trailing dots removed. -/
def isVariadicArgument (value : String) : Bool × String :=
  if !isFlag value && goHasSfx value "..." then
    (true, trimRightDots value)
  else
    (false, "")

/-! ## Type coercer (`convert` and the Go library parsers it calls) -/

/-- Go `strconv.ParseBool`: accepts exactly the twelve literal forms. -/
def goParseBool (s : String) : Option Bool :=
  if s == "1" || s == "t" || s == "T" || s == "true" || s == "TRUE" || s == "True" then
    some true
  else if s == "0" || s == "f" || s == "F" || s == "false" || s == "FALSE" || s == "False" then
    some false
  else
    none

/-- Numeric value of a decimal digit character. -/
def digitVal (c : Char) : Nat := c.toNat - 48

/-- Go `strconv.Atoi`: optional sign, one or more decimal digits, failing
outside the int64 range. -/
def goAtoi (s : String) : Option Int :=
  match s.data with
  | [] => none
  | cs =>
    let signed : Bool × List Char :=
      match cs with
      | '-' :: t => (true, t)
      | '+' :: t => (false, t)
      | t => (false, t)
    match signed with
    | (neg, ds) =>
      if ds.isEmpty then none
      else if ds.all Char.isDigit then
        let n : Nat := ds.foldl (fun a c => a * 10 + digitVal c) 0
        let v : Int := if neg then -(n : Int) else (n : Int)
        if -(2 ^ 63) ≤ v ∧ v ≤ 2 ^ 63 - 1 then some v else none
      else none

/-- Go `isLeap` (Gregorian leap year). -/
def isLeap (y : Nat) : Bool :=
  y % 4 == 0 && (y % 100 != 0 || y % 400 == 0)

/-- Go `daysIn(month, year)`. -/
def daysIn (m y : Nat) : Nat :=
  if m == 2 then (if isLeap y then 29 else 28)
  else if m == 4 || m == 6 || m == 9 || m == 11 then 30
  else 31

/-- Go `time.Parse("2006-01-02 03:04", i)`: exactly sixteen characters
`YYYY-MM-DD hh:mm`, all digit positions decimal digits, month in 1..12,
day in range for the month, minute in 0..59, and — because `03` is the
ZERO-PADDED TWELVE-HOUR-CLOCK layout element — hour at most 12. -/
def parseTimestamp (s : String) : Option Timestamp :=
  match s.data with
  | [y1, y2, y3, y4, s1, m1, m2, s2, d1, d2, s3, h1, h2, s4, n1, n2] =>
    if s1 == '-' && s2 == '-' && s3 == ' ' && s4 == ':' &&
        [y1, y2, y3, y4, m1, m2, d1, d2, h1, h2, n1, n2].all Char.isDigit then
      let y := ((digitVal y1 * 10 + digitVal y2) * 10 + digitVal y3) * 10 + digitVal y4
      let mo := digitVal m1 * 10 + digitVal m2
      let d := digitVal d1 * 10 + digitVal d2
      let h := digitVal h1 * 10 + digitVal h2
      let mi := digitVal n1 * 10 + digitVal n2
      if 1 ≤ mo ∧ mo ≤ 12 ∧ 1 ≤ d ∧ d ≤ daysIn mo y ∧ h ≤ 12 ∧ mi ≤ 59 then
        some ⟨y, mo, d, h, mi⟩
      else
        none
    else
      none
  | _ => none

/-- The `convert` function: coerce a raw token to the element type of the
declaration's default value.  A `none` result models a non-nil Go error. -/
def convert (i : String) (defaults : Default) : Option Value :=
  match defaults.elemKind with
  | .kBool => (goParseBool i).map Value.vBool
  | .kStr => some (.vStr i)
  | .kInt => (goAtoi i).map Value.vInt
  | .kTime => (parseTimestamp i).map Value.vTime

/-! ## Validator -/

/-- The `validateElement` function: membership when the default is a slice,
runtime-type equality otherwise. -/
def validateElement (val : Value) (vals : Default) : Bool :=
  match vals with
  | .choices _ vs => vs.contains val
  | .scalar dv => val.kind == dv.kind

/-- The `validateParams` function: a nil value is an error; a slice value is
checked elementwise; a scalar value is checked once. -/
def validateParams (a : Arg) : Option ParseError :=
  match a.value with
  | none => some (.badArgument a.name "parameter requires argument")
  | some (.list vs) =>
    if vs.all (fun v => validateElement v a.defaultValue) then none
    else some (.badArgument a.name "illegal value")
  | some (.single v) =>
    if validateElement v a.defaultValue then none
    else some (.badArgument a.name "illegal value")

/-! ## Token normalizer -/

/-- The `detectSplitCombined` function: an argument containing `=` or
starting with `--` is left alone; a `-abc` cluster is split into
`-a -b -c`; anything else passes through. -/
def detectSplitCombined (s : String) : List String :=
  if containsChar s '=' then [s]
  else if goHasPfx s "--" then [s]
  else if goHasPfx s "-" then
    (s.data.drop 1).map (fun c => String.mk ['-', c])
  else [s]

/-- Per-token body of `formatCommandValues`: after combined-flag splitting,
a flag token is split on `=` and parts reduced to spaces are discarded. -/
def formatToken (presplit : String) : List String :=
  (detectSplitCombined presplit).flatMap (fun value =>
    if isFlag value then
      ((splitOnChar '=' value.data).map String.mk).filter hasNonSpace
    else [value])

/-- The `formatCommandValues` function (its `fmt.Printf` debug output is
irrelevant to the returned value). -/
def formatCommandValues (values : List String) : List String :=
  values.flatMap formatToken

/-! ## Command resolver -/

/-- The `isRootCommand` function. -/
def isRootCommand (values : List String) (registry : Registry) : Bool :=
  match assocLookup registry "" with
  | none => false
  | some root =>
    match values with
    | [] => true
    | v :: _ =>
      isFlag v ||
        (decide (root.args.length > 0) && (assocLookup registry v).isNone)

/-! ## Binder -/

/-- Flag resolution and boolean handling (`Parse` lines 156–204): classify
the token as short or long flag, resolve its declaration, apply `no-`
inversion, and bind boolean flags immediately.  Returns the updated
config together with the long name and post-update declaration of the
resolved flag and its boolean-ness. -/
def resolveFlag (cfg : CommandConfig) (v : String) :
    Except ParseError (CommandConfig × String × Flag × Bool) :=
  let name := trimLeftDashes v
  if isShortFlag v then
    match assocLookup cfg.flagsShort name with
    | none => .error (.unknownFlag v)
    | some flagName =>
      match assocLookup cfg.flags flagName with
      | none => .error .goPanic
      | some flag =>
        match flag.defaultValue with
        | .scalar (.vBool _) =>
          let flag' := { flag with value := some (.single (.vBool true)) }
          .ok (updateFlag cfg flagName flag', flagName, flag', true)
        | _ => .ok (cfg, flagName, flag, false)
  else
    let inv : String × Bool :=
      if goHasPfx name "no-" then (strDrop name 3, true) else (name, false)
    match assocLookup cfg.flags inv.1 with
    | none => .error (.unknownFlag v)
    | some flag =>
      match flag.defaultValue with
      | .scalar (.vBool _) =>
        let flag' := { flag with value := some (.single (.vBool !inv.2)) }
        .ok (updateFlag cfg inv.1 flag', inv.1, flag', true)
      | _ =>
        if inv.2 then .error (.badArgument flag.name "non-bool flag")
        else .ok (cfg, inv.1, flag, false)

/-- Flag-token processing (`Parse` lines 156–218): resolve the flag, then
for a non-boolean flag look ahead one token — consume and coerce it when it
is present and not itself a flag, fail when it is absent — and finally
validate the flag's argument view.  The boolean result records whether the
lookahead token was consumed. -/
def processFlagToken (cfg : CommandConfig) (v : String) (rest : List String) :
    Except ParseError (CommandConfig × Bool) :=
  match resolveFlag cfg v with
  | .error e => .error e
  | .ok (cfg₁, lname, flag, isBool) =>
    if isBool then
      match validateParams flag.toArg with
      | some e => .error e
      | none => .ok (cfg₁, false)
    else
      let nv := rest.headD ""
      if nv ≠ "" && !isFlag nv then
        match convert nv flag.defaultValue with
        | none => .error (.convErr nv)
        | some cv =>
          let flag' := { flag with value := some (.single cv) }
          match validateParams flag'.toArg with
          | some e => .error e
          | none => .ok (updateFlag cfg₁ lname flag', true)
      else if nv = "" then
        .error (.badArgument flag.name
          "parameter requires an argument, none was provided")
      else
        match validateParams flag.toArg with
        | some e => .error e
        | none => .ok (cfg₁, false)

/-- Append a converted value to a variadic argument's accumulated slice
(the `reflect.Append` block); appending to a non-slice value is a Go
panic. -/
def appendConval (a : Arg) (cv : Value) : Except ParseError Arg :=
  match a.value with
  | some (.list vs) => .ok { a with value := some (.list (vs ++ [cv])) }
  | _ => .error .goPanic

/-- Positional-argument loop body (`Parse` lines 224–258): walk the ordered
argument names, converting the token against EVERY declaration visited;
bind at the first declaration with a nil value (breaking if it is not
variadic), and append to the last declaration when it is variadic.
Returns the final config and the last declaration visited (post-update),
which `Parse` then validates. -/
def argTokenLoop (value : String) (total : Nat) :
    List String → Nat → CommandConfig →
    Except ParseError (CommandConfig × Option Arg)
  | [], _, cfg => .ok (cfg, none)
  | argName :: restNames, index, cfg =>
    match assocLookup cfg.args argName with
    | none => .error .goPanic
    | some arg =>
      match convert value arg.defaultValue with
      | none => .error (.convErr value)
      | some conval =>
        if arg.value.isNone && !arg.isVariadic then
          let arg₁ := { arg with value := some (.single conval) }
          .ok (updateArg cfg argName arg₁, some arg₁)
        else
          let arg₁ :=
            if arg.value.isNone then { arg with value := some (.list []) }
            else arg
          match
            (if index + 1 = total && arg.isVariadic then
              appendConval arg₁ conval
            else .ok arg₁) with
          | .error e => .error e
          | .ok arg₂ =>
            match argTokenLoop value total restNames (index + 1)
                (updateArg cfg argName arg₂) with
            | .error e => .error e
            | .ok (cfg', none) => .ok (cfg', some arg₂)
            | .ok (cfg', some a) => .ok (cfg', some a)

/-- Non-flag-token processing (`Parse` lines 219–262): run the argument
loop, then validate the last visited argument (a nil `*Arg` — an empty
`ArgNames` — is a Go panic). -/
def processArgToken (cfg : CommandConfig) (value : String) :
    Except ParseError CommandConfig :=
  match argTokenLoop value cfg.argNames.length cfg.argNames 0 cfg with
  | .error e => .error e
  | .ok (_, none) => .error .goPanic
  | .ok (cfg', some a) =>
    match validateParams a with
    | some e => .error e
    | none => .ok cfg'

/-- Main token loop of `Parse` (lines 144–263): stop at the end of input or
at an empty token; dispatch flag tokens and positional tokens. -/
def parseLoop : CommandConfig → List String → Except ParseError CommandConfig
  | cfg, [] => .ok cfg
  | cfg, v :: rest =>
    if strLen v = 0 then .ok cfg
    else if isFlag v then
      match processFlagToken cfg v rest with
      | .error e => .error e
      | .ok (cfg', consumed) =>
        if consumed then
          match rest with
          | [] => .ok cfg'
          | _ :: rest' => parseLoop cfg' rest'
        else
          parseLoop cfg' rest
    else
      match processArgToken cfg v with
      | .error e => .error e
      | .ok cfg' => parseLoop cfg' rest

/-- The `Parse` method: resolve the command name, normalize the remaining
tokens, reject structurally malformed flags, look the command up, and run
the main loop. -/
def Parse (registry : Registry) (values : List String) :
    Except ParseError CommandConfig :=
  let split : String × List String :=
    if isRootCommand values registry then ("", values)
    else (values.headD "", values.tail)
  let valuesToProcess := formatCommandValues split.2
  match valuesToProcess.find? (fun val => isFlag val && isUnknownFlag val) with
  | some val => .error (.unknownFlag val)
  | none =>
    match assocLookup registry split.1 with
    | none => .error (.unknownCommand split.1)
    | some commandConfig => parseLoop commandConfig valuesToProcess

/-! ## Registration helpers (`AddArg`; used to build the concrete schemas
appearing in the claims) -/

/-- The `AddArg` method: clean the name, skip an already-registered
argument, strip a variadic suffix, and append to the ordered name list.
String defaults pass through `trimWhitespaces` (the identity). -/
def AddArg (cfg : CommandConfig) (name : String) (defaultValue : Default) :
    CommandConfig :=
  let name := removeWhitespaces name
  match assocLookup cfg.args name with
  | some _ => cfg
  | none =>
    let variadic := isVariadicArgument name
    let argName := if variadic.1 then variadic.2 else name
    let arg : Arg :=
      { name := argName, isVariadic := variadic.1,
        defaultValue := defaultValue, value := none }
    { cfg with args := cfg.args ++ [(argName, arg)],
               argNames := cfg.argNames ++ [argName] }

/-- Long-flag registration, restricted to the cases exercised by the
claims: a non-inverted long name with no short name (`AddFlag` with its
inversion and short-name bookkeeping stripped to this case). -/
def AddLongFlag (cfg : CommandConfig) (name : String) (defaultValue : Default) :
    CommandConfig :=
  let name := removeWhitespaces name
  match assocLookup cfg.flags name with
  | some _ => cfg
  | none =>
    let flag : Flag :=
      { name := name, shortName := "", isVariadic := false,
        defaultValue := defaultValue, value := none }
    { cfg with flags := cfg.flags ++ [(name, flag)] }

/-! ## Result extractors and concrete schemas used by the claims -/

/-- Whether a parse result is a success. -/
def parseOk (r : Except ParseError CommandConfig) : Bool :=
  match r with
  | .ok _ => true
  | .error _ => false

/-- Bound value of a positional argument in a successful parse result. -/
def boundArg (r : Except ParseError CommandConfig) (n : String) :
    Option BoundValue :=
  match r with
  | .ok cfg =>
    match assocLookup cfg.args n with
    | some a => a.value
    | none => none
  | .error _ => none

/-- Bound value of a flag in a successful parse result. -/
def boundFlag (r : Except ParseError CommandConfig) (n : String) :
    Option BoundValue :=
  match r with
  | .ok cfg =>
    match assocLookup cfg.flags n with
    | some f => f.value
    | none => none
  | .error _ => none

/-- Two-digit zero-padded decimal rendering of a number below 100. -/
def pad2 (n : Nat) : String :=
  ⟨[Char.ofNat (48 + n / 10), Char.ofNat (48 + n % 10)]⟩

/-- Schema for C1: command `c` with positionals `count` (int default) and
`name` (string default). -/
def regC1 : Registry :=
  [("c", AddArg (AddArg { name := "c" } "count" (.scalar (.vInt 0)))
      "name" (.scalar (.vStr "")))]

/-- Schema for C2: command `c` with a timestamp-defaulted positional. -/
def regC2 : Registry :=
  [("c", AddArg { name := "c" } "when"
      (.scalar (.vTime ⟨2020, 1, 1, 0, 0⟩)))]

/-- Schema for C3: command `c` with a string flag `output` and a boolean
flag `verbose`. -/
def regC3 : Registry :=
  [("c", AddLongFlag (AddLongFlag { name := "c" } "output"
      (.scalar (.vStr ""))) "verbose" (.scalar (.vBool false)))]

/-- Schema for C4: command `c` with boolean flags `clean` (default true)
and `keep` (default false) and a string flag `out`. -/
def regC4 : Registry :=
  [("c", AddLongFlag (AddLongFlag (AddLongFlag { name := "c" } "clean"
      (.scalar (.vBool true))) "keep" (.scalar (.vBool false)))
      "out" (.scalar (.vStr "")))]

/-- Schema for C5: command `info` with positionals `category`, `username`
and trailing variadic `subjects...`, all with string defaults. -/
def regC5 : Registry :=
  [("info", AddArg (AddArg (AddArg { name := "info" } "category"
      (.scalar (.vStr ""))) "username" (.scalar (.vStr "")))
      "subjects..." (.scalar (.vStr "")))]

/-- Schema for C6: command `c` with no flag named `bogus`. -/
def regC6 : Registry :=
  [("c", AddLongFlag { name := "c" } "other" (.scalar (.vStr "")))]

/-- Schema for C7: command `c` with a positional constrained to the choice
set `["manager", "student"]`. -/
def regC7 : Registry :=
  [("c", AddArg { name := "c" } "category"
      (.choices .kStr [.vStr "manager", .vStr "student"]))]

/-- Schema for C8: command `c` with a string flag `f` and a string
positional `p`. -/
def regC8 : Registry :=
  [("c", AddArg (AddLongFlag { name := "c" } "f" (.scalar (.vStr "")))
      "p" (.scalar (.vStr "")))]

/-- Schema for C9: command `c` with a string flag `out`. -/
def regC9 : Registry :=
  [("c", AddLongFlag { name := "c" } "out" (.scalar (.vStr "")))]

/-- Schema for C10: only the sub-command `c` is registered; there is no
root command. -/
def regC10 : Registry :=
  [("c", { name := "c" })]

/-- The `info` command config of `regC5` at an intermediate binding state:
three string positionals, the last variadic. -/
def cfgInfo (cat user subs : Option BoundValue) : CommandConfig :=
  { name := "info",
    args := [("category",
              { name := "category", defaultValue := .scalar (.vStr ""),
                value := cat }),
             ("username",
              { name := "username", defaultValue := .scalar (.vStr ""),
                value := user }),
             ("subjects",
              { name := "subjects", isVariadic := true,
                defaultValue := .scalar (.vStr ""), value := subs })],
    argNames := ["category", "username", "subjects"] }

/-- The `c` command config of `regC9` at an intermediate binding state: one
string flag `out`. -/
def cfgOut (v : Option BoundValue) : CommandConfig :=
  { name := "c",
    flags := [("out",
               { name := "out", shortName := "",
                 defaultValue := .scalar (.vStr ""), value := v })] }

/-- The `c` command config of `regC1` at an intermediate binding state:
positional `count` (int default, possibly bound) then `name` (string
default, unbound). -/
def cfgCount (v : Option BoundValue) : CommandConfig :=
  { name := "c",
    args := [("count",
              { name := "count", defaultValue := .scalar (.vInt 0),
                value := v }),
             ("name",
              { name := "name", defaultValue := .scalar (.vStr ""),
                value := none })],
    argNames := ["count", "name"] }

/-- A boolean flag declaration with default true (as `clapper`'s own test
schema declares `no-clean`, stored under `clean`). -/
def flagClean : Flag :=
  { name := "clean", defaultValue := .scalar (.vBool true) }

/-- A string flag declaration named `out`. -/
def flagOut : Flag :=
  { name := "out", defaultValue := .scalar (.vStr "") }

/-- A string flag declaration named `output`. -/
def flagOutput : Flag :=
  { name := "output", defaultValue := .scalar (.vStr "") }

/-- A boolean flag declaration named `verbose` with default false. -/
def flagVerbose : Flag :=
  { name := "verbose", defaultValue := .scalar (.vBool false) }

/-- Command config carrying `flagClean` and `flagOut`. -/
def cfgC4c : CommandConfig :=
  { name := "c", flags := [("clean", flagClean), ("out", flagOut)] }

/-- Command config carrying `flagOutput` and `flagVerbose`. -/
def cfgC3c : CommandConfig :=
  { name := "c", flags := [("output", flagOutput), ("verbose", flagVerbose)] }

/-- An already-bound scalar string argument, used to witness preservation
statements. -/
def boundArgP : Arg :=
  { name := "p", isVariadic := false, defaultValue := .scalar (.vStr ""),
    value := some (.single (.vStr "a")) }

/-- A one-argument config whose only positional is already bound. -/
def cfgBoundP : CommandConfig :=
  { name := "c", args := [("p", boundArgP)], argNames := ["p"] }

/-! ## Theorems -/

/-- One step of the main loop on a non-flag token that binds successfully. -/
theorem parseLoop_arg_step (cfg cfg' : CommandConfig) (v : String)
    (rest : List String) (h1 : strLen v ≠ 0) (h2 : isFlag v = false)
    (h3 : processArgToken cfg v = .ok cfg') :
    parseLoop cfg (v :: rest) = parseLoop cfg' rest := by
  simp only [parseLoop, if_neg h1, h2, h3]
  simp

/-- One step of the main loop on a flag token that consumes its value. -/
theorem parseLoop_flag_consume (cfg cfg' : CommandConfig) (v w : String)
    (rest : List String) (h1 : strLen v ≠ 0) (h2 : isFlag v = true)
    (h3 : processFlagToken cfg v (w :: rest) = .ok (cfg', true)) :
    parseLoop cfg (v :: w :: rest) = parseLoop cfg' rest := by
  simp only [parseLoop, if_neg h1, h2, h3]
  simp

/-- One step of the main loop on a flag token that consumes no value. -/
theorem parseLoop_flag_skip (cfg cfg' : CommandConfig) (v : String)
    (rest : List String) (h1 : strLen v ≠ 0) (h2 : isFlag v = true)
    (h3 : processFlagToken cfg v rest = .ok (cfg', false)) :
    parseLoop cfg (v :: rest) = parseLoop cfg' rest := by
  simp only [parseLoop, if_neg h1, h2, h3]
  simp

/-- A failing non-flag token aborts the main loop with its error. -/
theorem parseLoop_arg_err (cfg : CommandConfig) (v : String)
    (rest : List String) (e : ParseError) (h1 : strLen v ≠ 0)
    (h2 : isFlag v = false) (h3 : processArgToken cfg v = .error e) :
    parseLoop cfg (v :: rest) = .error e := by
  simp only [parseLoop, if_neg h1, h2, h3]
  simp

/-- A failing flag token aborts the main loop with its error. -/
theorem parseLoop_flag_err (cfg : CommandConfig) (v : String)
    (rest : List String) (e : ParseError) (h1 : strLen v ≠ 0)
    (h2 : isFlag v = true) (h3 : processFlagToken cfg v rest = .error e) :
    parseLoop cfg (v :: rest) = .error e := by
  simp only [parseLoop, if_neg h1, h2, h3]
  simp

/-- A token with a `--` prefix is never classified as a short flag. -/
theorem isShortFlag_dd (s : String) (h : goHasPfx s "--" = true) :
    isShortFlag s = false := by
  simp [isShortFlag, h]

/-- Character decomposition of a `--`-prefixed token. -/
theorem dd_data (name : String) :
    ("--" ++ name).data = '-' :: '-' :: name.data := by
  simp [String.data_append]

/-- Character decomposition of a `--no-`-prefixed token. -/
theorem ddno_data (name : String) :
    ("--no-" ++ name).data = '-' :: '-' :: 'n' :: 'o' :: '-' :: name.data := by
  simp [String.data_append]

/-- Character decomposition of a `no-`-prefixed name. -/
theorem no_data (name : String) :
    ("no-" ++ name).data = 'n' :: 'o' :: '-' :: name.data := by
  simp [String.data_append]

/-- Every `--`-prefixed token has the `--` prefix. -/
theorem goHasPfx_dd_any (name : String) :
    goHasPfx ("--" ++ name) "--" = true := by
  simp [goHasPfx, dd_data, List.isPrefixOf]

/-- Every `--no-`-prefixed token has the `--` prefix. -/
theorem goHasPfx_ddno_any (name : String) :
    goHasPfx ("--no-" ++ name) "--" = true := by
  simp [goHasPfx, ddno_data, List.isPrefixOf]

/-- Every `no-`-prefixed name has the `no-` prefix. -/
theorem goHasPfx_no (name : String) :
    goHasPfx ("no-" ++ name) "no-" = true := by
  simp [goHasPfx, no_data, List.isPrefixOf]

/-- Dash-trimming a `--no-`-prefixed token stops at the `n`. -/
theorem trimLeftDashes_ddno (name : String) :
    trimLeftDashes ("--no-" ++ name) = "no-" ++ name := by
  apply String.ext
  rw [no_data]
  unfold trimLeftDashes
  rw [ddno_data]
  simp [List.dropWhile]

/-- Dash-trimming `--name` recovers `name` when the name itself does not
start with a dash. -/
theorem trimLeftDashes_dd (name : String) (h : goHasPfx name "-" = false) :
    trimLeftDashes ("--" ++ name) = name := by
  apply String.ext
  unfold trimLeftDashes
  rw [dd_data]
  simp only [List.dropWhile]
  norm_num
  cases hd : name.data with
  | nil => simp [List.dropWhile]
  | cons c t =>
    unfold goHasPfx at h
    rw [hd] at h
    simp [List.isPrefixOf] at h
    have h' : ¬ c = '-' := fun hc => h hc.symm
    simp [List.dropWhile, h']

/-- Slicing off the `no-` prefix recovers the bare name. -/
theorem strDrop_no (name : String) : strDrop ("no-" ++ name) 3 = name := by
  apply String.ext
  simp [strDrop, no_data]

/-- A flag token is never the empty string. -/
theorem isFlag_ne_empty (s : String) (h : isFlag s = true) : ¬(s = "") := by
  intro hc
  subst hc
  exact absurd h (by decide)

/-- C1 counterexample: with positionals `count` (int default, already
bound by the token `5`) and `name` (string default), the token `bob` —
destined for `name` — is coerced against the already-bound `count` first,
and that coercion failure aborts the whole parse, contradicting the claim
that bound declarations are skipped without any coercion attempt. -/
theorem C1_counterexample :
    Parse regC1 ["c", "5", "bob"] = .error (.convErr "bob") := rfl

/-- C5 (confirmed): with positionals `category`, `username` and trailing
variadic `subjects...` (string defaults), parsing
`student thatisuday math science physics` succeeds and binds
category to "student", username to "thatisuday" and subjects to
["math", "science", "physics"] in encounter order. -/
theorem C5_variadic_accumulation :
    parseOk (Parse regC5
      ["info", "student", "thatisuday", "math", "science", "physics"]) = true ∧
    boundArg (Parse regC5
      ["info", "student", "thatisuday", "math", "science", "physics"])
      "category" = some (.single (.vStr "student")) ∧
    boundArg (Parse regC5
      ["info", "student", "thatisuday", "math", "science", "physics"])
      "username" = some (.single (.vStr "thatisuday")) ∧
    boundArg (Parse regC5
      ["info", "student", "thatisuday", "math", "science", "physics"])
      "subjects" =
      some (.list [.vStr "math", .vStr "science", .vStr "physics"]) := by
  have h0 : Parse regC5
      ["info", "student", "thatisuday", "math", "science", "physics"] =
      parseLoop (cfgInfo none none none)
        ["student", "thatisuday", "math", "science", "physics"] := rfl
  have h1 := parseLoop_arg_step (cfgInfo none none none)
    (cfgInfo (some (.single (.vStr "student"))) none none) "student"
    ["thatisuday", "math", "science", "physics"]
    (by decide) (by decide) (by rfl)
  have h2 := parseLoop_arg_step
    (cfgInfo (some (.single (.vStr "student"))) none none)
    (cfgInfo (some (.single (.vStr "student")))
      (some (.single (.vStr "thatisuday"))) none) "thatisuday"
    ["math", "science", "physics"] (by decide) (by decide) (by rfl)
  have h3 := parseLoop_arg_step
    (cfgInfo (some (.single (.vStr "student")))
      (some (.single (.vStr "thatisuday"))) none)
    (cfgInfo (some (.single (.vStr "student")))
      (some (.single (.vStr "thatisuday"))) (some (.list [.vStr "math"])))
    "math" ["science", "physics"] (by decide) (by decide) (by rfl)
  have h4 := parseLoop_arg_step
    (cfgInfo (some (.single (.vStr "student")))
      (some (.single (.vStr "thatisuday"))) (some (.list [.vStr "math"])))
    (cfgInfo (some (.single (.vStr "student")))
      (some (.single (.vStr "thatisuday")))
      (some (.list [.vStr "math", .vStr "science"])))
    "science" ["physics"] (by decide) (by decide) (by rfl)
  have h5 := parseLoop_arg_step
    (cfgInfo (some (.single (.vStr "student")))
      (some (.single (.vStr "thatisuday")))
      (some (.list [.vStr "math", .vStr "science"])))
    (cfgInfo (some (.single (.vStr "student")))
      (some (.single (.vStr "thatisuday")))
      (some (.list [.vStr "math", .vStr "science", .vStr "physics"])))
    "physics" [] (by decide) (by decide) (by rfl)
  have hfin : Parse regC5
      ["info", "student", "thatisuday", "math", "science", "physics"] =
      .ok (cfgInfo (some (.single (.vStr "student")))
        (some (.single (.vStr "thatisuday")))
        (some (.list [.vStr "math", .vStr "science", .vStr "physics"]))) := by
    rw [h0, h1, h2, h3, h4, h5]; rfl
  refine ⟨?_, ?_, ?_, ?_⟩ <;> rw [hfin] <;> rfl

/-- C2 counterexample: the layout element `03` in the Go layout string
`2006-01-02 03:04` is the zero-padded twelve-hour-clock hour, so the token
`2020-01-02 13:30` — well-formed under the claimed 24-hour format — FAILS
to coerce against a timestamp default, and that failure aborts the parse. -/
theorem C2_counterexample :
    convert "2020-01-02 13:30" (.scalar (.vTime ⟨2020, 1, 1, 0, 0⟩)) = none ∧
    Parse regC2 ["c", "2020-01-02 13:30"] =
      .error (.convErr "2020-01-02 13:30") :=
  ⟨rfl, rfl⟩

/-- C3 counterexample: for the non-boolean flag `output` followed by the
flag token `--verbose`, no value is consumed but `Parse` DOES fail on the
occurrence's account: the post-binding validation of the still-unbound
flag reports a BadArgument error, contradicting the claim that a missing
value error arises only when no next token exists. -/
theorem C3_counterexample :
    Parse regC3 ["c", "--output", "--verbose"] =
      .error (.badArgument "output" "parameter requires argument") := rfl

/-- C6 counterexample: parsing the undeclared long flag `--bogus` yields an
UnknownFlag error whose Name field is the FULL token `--bogus`, dashes
included, not the bare name `bogus` asserted by the claim. -/
theorem C6_counterexample :
    Parse regC6 ["c", "--bogus"] = .error (.unknownFlag "--bogus") ∧
    ("--bogus" : String) ≠ "bogus" :=
  ⟨rfl, by decide⟩

/-- C7 (confirmed): a bound value passes choice-set validation iff it
equals some element of the declared sequence; concretely, against the
choice set `["manager", "student"]` the token `teacher` fails with
BadArgument while `student` binds successfully. -/
theorem C7_choice_set :
    (∀ (v : Value) (k : Kind) (vs : List Value),
      validateElement v (.choices k vs) = true ↔ v ∈ vs) ∧
    Parse regC7 ["c", "teacher"] =
      .error (.badArgument "category" "illegal value") ∧
    parseOk (Parse regC7 ["c", "student"]) = true ∧
    boundArg (Parse regC7 ["c", "student"]) "category" =
      some (.single (.vStr "student")) := by
  refine ⟨?_, rfl, rfl, rfl⟩
  intro v k vs
  simp [validateElement, List.contains, List.elem_eq_mem]

/-- C8 counterexample: for the value string `a=b`, the single token
`--f=a=b` is normalized to `--f a b` (binding f to "a" and the positional
`p` to "b"), while the two tokens `--f` and `a=b` bind f to "a=b" and
leave `p` unbound — so the two spellings do not bind identically. -/
theorem C8_counterexample :
    boundFlag (Parse regC8 ["c", "--f=a=b"]) "f" =
      some (.single (.vStr "a")) ∧
    boundArg (Parse regC8 ["c", "--f=a=b"]) "p" =
      some (.single (.vStr "b")) ∧
    boundFlag (Parse regC8 ["c", "--f", "a=b"]) "f" =
      some (.single (.vStr "a=b")) ∧
    boundArg (Parse regC8 ["c", "--f", "a=b"]) "p" = none ∧
    some (BoundValue.single (.vStr "a")) ≠
      some (BoundValue.single (.vStr "a=b")) :=
  ⟨rfl, rfl, rfl, rfl, by decide⟩

/-- C9 counterexample: the scalar flag `out` is written twice in one parse
of `--out a --out b` — the later occurrence overwrites the earlier bound
value, as parsing the prefix `--out a` alone shows — contradicting the
claim that every non-variadic declaration's value is written at most once. -/
theorem C9_counterexample :
    boundFlag (Parse regC9 ["c", "--out", "a", "--out", "b"]) "out" =
      some (.single (.vStr "b")) ∧
    boundFlag (Parse regC9 ["c", "--out", "a"]) "out" =
      some (.single (.vStr "a")) := by
  have h0 : Parse regC9 ["c", "--out", "a", "--out", "b"] =
      parseLoop (cfgOut none) ["--out", "a", "--out", "b"] := rfl
  have h1 := parseLoop_flag_consume (cfgOut none)
    (cfgOut (some (.single (.vStr "a")))) "--out" "a" ["--out", "b"]
    (by decide) (by decide) (by rfl)
  have h2 := parseLoop_flag_consume (cfgOut (some (.single (.vStr "a"))))
    (cfgOut (some (.single (.vStr "b")))) "--out" "b" []
    (by decide) (by decide) (by rfl)
  have hfin : Parse regC9 ["c", "--out", "a", "--out", "b"] =
      .ok (cfgOut (some (.single (.vStr "b")))) := by
    rw [h0, h1, h2]; rfl
  exact ⟨by rw [hfin]; rfl, rfl⟩

/-- C1 amended: on a non-flag token the binder attempts coercion against
the declarations in `ArgNames` order starting from the FIRST one — bound
or not — and a coercion failure against the first declaration aborts the
whole parse with that conversion error, even when the first declaration is
already bound and the token is destined for a later one. -/
theorem C1_amended (cfg : CommandConfig) (v n : String) (ns : List String)
    (arg : Arg) (h1 : cfg.argNames = n :: ns)
    (h2 : assocLookup cfg.args n = some arg)
    (h3 : convert v arg.defaultValue = none) :
    processArgToken cfg v = .error (.convErr v) := by
  simp only [processArgToken, h1, argTokenLoop, h2, h3]

/-- C1 amended, witnessed at the counterexample state: with `count` already
bound to 5, the token `bob` still fails conversion against `count`'s int
default and aborts. -/
theorem C1_amended_witness :
    processArgToken (cfgCount (some (.single (.vInt 5)))) "bob" =
      .error (.convErr "bob") :=
  C1_amended (cfgCount (some (.single (.vInt 5)))) "bob" "count" ["name"]
    { name := "count", defaultValue := .scalar (.vInt 0),
      value := some (.single (.vInt 5)) } rfl rfl rfl

/-- C6 amended: parsing the undeclared long flag `--bogus` against any
config that declares no flag named `bogus` fails with UnknownFlag, whose
Name field is the full token `--bogus` (with its leading dashes). -/
theorem C6_amended (cfg : CommandConfig) (rest : List String)
    (h : assocLookup cfg.flags "bogus" = none) :
    processFlagToken cfg "--bogus" rest = .error (.unknownFlag "--bogus") := by
  have e1 : trimLeftDashes "--bogus" = "bogus" := rfl
  have e2 : isShortFlag "--bogus" = false := rfl
  have e3 : goHasPfx "bogus" "no-" = false := rfl
  simp only [processFlagToken, resolveFlag, e1, e2, e3, h]
  simp [h]

/-- C6 amended, witnessed against the `regC6` schema's command config. -/
theorem C6_amended_witness :
    processFlagToken
      { name := "c",
        flags := [("other",
                   { name := "other", shortName := "",
                     defaultValue := .scalar (.vStr ""), value := none })] }
      "--bogus" [] = .error (.unknownFlag "--bogus") :=
  C6_amended
    { name := "c",
      flags := [("other",
                 { name := "other", shortName := "",
                   defaultValue := .scalar (.vStr ""), value := none })] }
    [] rfl

/-- C10 (confirmed): when no root command is registered, `Parse` consumes
the first token (the empty string for an empty vector, or even a
flag-shaped token) as the command name, and fails with UnknownCommand
naming exactly that token whenever it is not a registered command name. -/
theorem C10_unregistered_root (reg : Registry) (t : String)
    (h1 : assocLookup reg "" = none) (h2 : assocLookup reg t = none) :
    Parse reg [] = .error (.unknownCommand "") ∧
    Parse reg [t] = .error (.unknownCommand t) := by
  constructor
  · simp only [Parse, isRootCommand, h1]
    simp [formatCommandValues, h1]
  · simp only [Parse, isRootCommand, h1]
    simp [formatCommandValues, h2]

/-- C10 witnessed on the `regC10` schema (only sub-command `c` registered)
with the flag-shaped token `--x`. -/
theorem C10_unregistered_root_witness :
    Parse regC10 [] = .error (.unknownCommand "") ∧
    Parse regC10 ["--x"] = .error (.unknownCommand "--x") :=
  C10_unregistered_root regC10 "--x" rfl rfl

/-- C2 amended: the timestamp coercer accepts the fixed zero-padded layout
`YYYY-MM-DD hh:mm` with a TWELVE-hour-clock hour field: over every
two-digit hour, a token of that shape parses iff the hour is at most 12
(so `13:30` and above are rejected, not accepted as the 24-hour reading of
the spec would have it). -/
theorem C2_amended : ∀ h : Nat, h < 100 →
    ((parseTimestamp ("2020-01-02 " ++ pad2 h ++ ":30")).isSome = true ↔
      h ≤ 12) := by
  decide

/-- C2 amended, witnessed at hour 13: the token `2020-01-02 13:30` does not
parse. -/
theorem C2_amended_witness :
    (parseTimestamp ("2020-01-02 " ++ pad2 13 ++ ":30")).isSome = true ↔
      13 ≤ 12 :=
  C2_amended 13 (by decide)

/-- C4 (confirmed): for a declared flag with a scalar boolean default,
processing `--no-<name>` binds the flag to false and `--<name>` binds it
to true, whatever the declared default `b`; and applying the `no-`
inversion to a flag whose default is not a scalar boolean fails with a
BadArgument error. -/
theorem C4_boolean_flags (cfg : CommandConfig) (name : String) (f : Flag)
    (b : Bool) (rest : List String)
    (hpfx : goHasPfx name "-" = false) (hno : goHasPfx name "no-" = false)
    (hlook : assocLookup cfg.flags name = some f) :
    (f.defaultValue = .scalar (.vBool b) →
      processFlagToken cfg ("--no-" ++ name) rest =
        .ok (updateFlag cfg name
          { f with value := some (.single (.vBool false)) }, false)) ∧
    (f.defaultValue = .scalar (.vBool b) →
      processFlagToken cfg ("--" ++ name) rest =
        .ok (updateFlag cfg name
          { f with value := some (.single (.vBool true)) }, false)) ∧
    ((∀ w, f.defaultValue ≠ .scalar (.vBool w)) →
      processFlagToken cfg ("--no-" ++ name) rest =
        .error (.badArgument f.name "non-bool flag")) := by
  refine ⟨?_, ?_, ?_⟩
  · intro hdef
    simp only [processFlagToken, resolveFlag,
      isShortFlag_dd _ (goHasPfx_ddno_any name), trimLeftDashes_ddno,
      goHasPfx_no, strDrop_no]
    simp [hlook, hdef, validateParams, validateElement, Flag.toArg, Value.kind]
  · intro hdef
    simp only [processFlagToken, resolveFlag,
      isShortFlag_dd _ (goHasPfx_dd_any name), trimLeftDashes_dd name hpfx]
    simp [hno, hlook, hdef, validateParams, validateElement, Flag.toArg,
      Value.kind]
  · intro hne
    simp only [processFlagToken, resolveFlag,
      isShortFlag_dd _ (goHasPfx_ddno_any name), trimLeftDashes_ddno,
      goHasPfx_no, strDrop_no]
    cases hdv : f.defaultValue with
    | scalar v =>
      cases v with
      | vBool w => exact absurd hdv (hne w)
      | vStr s => simp [hlook, hdv]
      | vInt n => simp [hlook, hdv]
      | vTime t => simp [hlook, hdv]
    | choices k vs => simp [hlook, hdv]

/-- C4 witnessed on the boolean flag `clean` with default true: `--no-clean`
binds it to false. -/
theorem C4_boolean_flags_witness :
    processFlagToken cfgC4c ("--no-" ++ "clean") [] =
      .ok (updateFlag cfgC4c "clean"
        { flagClean with value := some (.single (.vBool false)) }, false) :=
  (C4_boolean_flags cfgC4c "clean" flagClean true [] rfl rfl rfl).1 rfl

/-- C3 amended: when a non-boolean declared flag's next token is itself a
flag, no value is consumed and no conversion is attempted — but `Parse`
then validates the flag, so the occurrence FAILS with BadArgument
"parameter requires argument" whenever the flag is still unbound, and
succeeds (leaving everything unchanged) only when an earlier occurrence
already bound it; when no next token exists at all, the distinct
BadArgument "parameter requires an argument, none was provided" is
raised. -/
theorem C3_flag_lookahead (cfg : CommandConfig) (name nv : String) (f : Flag)
    (w : Value) (rest : List String)
    (hpfx : goHasPfx name "-" = false) (hno : goHasPfx name "no-" = false)
    (hlook : assocLookup cfg.flags name = some f)
    (hnb : ∀ b, f.defaultValue ≠ .scalar (.vBool b)) :
    (rest.head? = some nv → isFlag nv = true → f.value = none →
      processFlagToken cfg ("--" ++ name) rest =
        .error (.badArgument f.name "parameter requires argument")) ∧
    (rest.head? = some nv → isFlag nv = true → f.value = some (.single w) →
      validateElement w f.defaultValue = true →
      processFlagToken cfg ("--" ++ name) rest = .ok (cfg, false)) ∧
    (processFlagToken cfg ("--" ++ name) [] =
      .error (.badArgument f.name
        "parameter requires an argument, none was provided")) := by
  refine ⟨?_, ?_, ?_⟩
  · intro hhead hnvflag hval
    have hne := isFlag_ne_empty nv hnvflag
    simp only [processFlagToken, resolveFlag,
      isShortFlag_dd _ (goHasPfx_dd_any name), trimLeftDashes_dd name hpfx]
    cases hdv : f.defaultValue with
    | scalar v =>
      cases v with
      | vBool b => exact absurd hdv (hnb b)
      | vStr s =>
        simp [hno, hlook, hdv, hhead, hnvflag, hne, validateParams,
          Flag.toArg, hval]
      | vInt n =>
        simp [hno, hlook, hdv, hhead, hnvflag, hne, validateParams,
          Flag.toArg, hval]
      | vTime t =>
        simp [hno, hlook, hdv, hhead, hnvflag, hne, validateParams,
          Flag.toArg, hval]
    | choices k vs =>
      simp [hno, hlook, hdv, hhead, hnvflag, hne, validateParams,
        Flag.toArg, hval]
  · intro hhead hnvflag hval hvalel
    have hne := isFlag_ne_empty nv hnvflag
    simp only [processFlagToken, resolveFlag,
      isShortFlag_dd _ (goHasPfx_dd_any name), trimLeftDashes_dd name hpfx]
    cases hdv : f.defaultValue with
    | scalar v =>
      cases v with
      | vBool b => exact absurd hdv (hnb b)
      | vStr s =>
        rw [hdv] at hvalel
        simp [hno, hlook, hdv, hhead, hnvflag, hne, validateParams,
          Flag.toArg, hval, hvalel]
      | vInt n =>
        rw [hdv] at hvalel
        simp [hno, hlook, hdv, hhead, hnvflag, hne, validateParams,
          Flag.toArg, hval, hvalel]
      | vTime t =>
        rw [hdv] at hvalel
        simp [hno, hlook, hdv, hhead, hnvflag, hne, validateParams,
          Flag.toArg, hval, hvalel]
    | choices k vs =>
      rw [hdv] at hvalel
      simp [hno, hlook, hdv, hhead, hnvflag, hne, validateParams,
        Flag.toArg, hval, hvalel]
  · simp only [processFlagToken, resolveFlag,
      isShortFlag_dd _ (goHasPfx_dd_any name), trimLeftDashes_dd name hpfx]
    cases hdv : f.defaultValue with
    | scalar v =>
      cases v with
      | vBool b => exact absurd hdv (hnb b)
      | vStr s => simp [hno, hlook, hdv]
      | vInt n => simp [hno, hlook, hdv]
      | vTime t => simp [hno, hlook, hdv]
    | choices k vs => simp [hno, hlook, hdv]

/-- C3 amended, witnessed on the unbound string flag `output` followed by
the flag token `--verbose`: the occurrence fails with BadArgument
"parameter requires argument". -/
theorem C3_flag_lookahead_witness :
    processFlagToken cfgC3c ("--" ++ "output") ["--verbose"] =
      .error (.badArgument flagOutput.name "parameter requires argument") :=
  (C3_flag_lookahead cfgC3c "output" "--verbose" flagOutput (.vStr "x")
    ["--verbose"] rfl rfl rfl (by decide)).1 rfl rfl rfl

/-- Looking up one key of an association list reads through an update of a
different key. -/
theorem assocLookup_cons {α : Type} (x : String) (y : α) (t : List (String × α))
    (k : String) :
    assocLookup ((x, y) :: t) k = if x == k then some y else assocLookup t k := by
  simp only [assocLookup, List.find?]
  cases hxk : x == k <;> simp

/-- Updating an association list rewrites exactly the matching heads. -/
theorem assocUpdate_cons {α : Type} (x : String) (y : α) (t : List (String × α))
    (k : String) (v : α) :
    assocUpdate ((x, y) :: t) k v =
      (if x == k then (x, v) else (x, y)) :: assocUpdate t k v := rfl

/-- An update at one key leaves lookups of other keys unchanged. -/
theorem assocLookup_update_ne {α : Type} (l : List (String × α)) (k k' : String)
    (v : α) (hne : ¬(k' = k)) :
    assocLookup (assocUpdate l k v) k' = assocLookup l k' := by
  induction l with
  | nil => rfl
  | cons p t ih =>
    obtain ⟨a, b⟩ := p
    rw [assocUpdate_cons]
    by_cases hak : a = k
    · have hb : (a == k') = false := by
        simp
        intro hc
        exact absurd (hc.symm.trans hak) hne
      have ht : (a == k) = true := by simp [hak]
      rw [ht]
      simp [assocLookup_cons, hb, ih]
    · have hb : (a == k) = false := by simp [hak]
      simp [hb, assocLookup_cons, ih]

/-- An update at a present key makes the lookup return the new value. -/
theorem assocLookup_update_self {α : Type} (l : List (String × α)) (k : String)
    (v : α) (a : α) (h : assocLookup l k = some a) :
    assocLookup (assocUpdate l k v) k = some v := by
  induction l with
  | nil => simp [assocLookup] at h
  | cons p t ih =>
    obtain ⟨x, b⟩ := p
    rw [assocUpdate_cons]
    by_cases hxk : x = k
    · simp [hxk, assocLookup_cons]
    · have hb : (x == k) = false := by simp [hxk]
      rw [assocLookup_cons, hb] at h
      simp at h
      simp [hb, assocLookup_cons, ih h]

/-- The positional-argument loop never changes an already-bound
non-variadic argument: it converts the token against it but writes only to
nil-valued or trailing-variadic declarations. -/
theorem argTokenLoop_preserve (value : String) (total : Nat)
    (names : List String) :
    ∀ (index : Nat) (cfg cfg' : CommandConfig) (last : Option Arg) (n : String)
      (arg : Arg),
      argTokenLoop value total names index cfg = .ok (cfg', last) →
      assocLookup cfg.args n = some arg →
      arg.isVariadic = false → arg.value.isSome = true →
      assocLookup cfg'.args n = some arg := by
  induction names with
  | nil =>
    intro index cfg cfg' last n arg h h1 h2 h3
    simp only [argTokenLoop, Except.ok.injEq, Prod.mk.injEq] at h
    rw [← h.1]
    exact h1
  | cons m rest ih =>
    intro index cfg cfg' last n arg h h1 h2 h3
    simp only [argTokenLoop] at h
    split at h
    · exact absurd h (by simp)
    · rename_i a heq
      split at h
      · exact absurd h (by simp)
      · rename_i conval hconv
        split at h
        · rename_i hbind
          simp only [Except.ok.injEq, Prod.mk.injEq] at h
          obtain ⟨h4, _⟩ := h
          by_cases hnm : n = m
          · subst hnm
            rw [h1] at heq
            have ha : arg = a := Option.some.inj heq
            rw [← ha] at hbind
            cases hv : arg.value with
            | none => rw [hv] at h3; simp at h3
            | some w => rw [hv] at hbind; simp at hbind
          · rw [← h4]
            simp only [updateArg]
            rw [assocLookup_update_ne cfg.args m n _ hnm]
            exact h1
        · rename_i hbind
          split at h
          · exact absurd h (by simp)
          · rename_i arg2 happ
            split at h
            · exact absurd h (by simp)
            · rename_i cfg2 hrec
              simp only [Except.ok.injEq, Prod.mk.injEq] at h
              obtain ⟨h4, _⟩ := h
              rw [← h4]
              apply ih (index + 1) (updateArg cfg m arg2) cfg2 none n arg hrec _
                h2 h3
              by_cases hnm : n = m
              · subst hnm
                rw [h1] at heq
                have ha : arg = a := Option.some.inj heq
                have hisnone : arg.value.isNone = false := by
                  cases hv : arg.value with
                  | none => rw [hv] at h3; simp at h3
                  | some w => simp
                rw [← ha, hisnone, h2] at happ
                simp at happ
                rw [← happ]
                simp only [updateArg]
                exact assocLookup_update_self cfg.args n arg arg h1
              · simp only [updateArg]
                rw [assocLookup_update_ne cfg.args m n _ hnm]
                exact h1
            · rename_i cfg2 a2 hrec
              simp only [Except.ok.injEq, Prod.mk.injEq] at h
              obtain ⟨h4, _⟩ := h
              rw [← h4]
              apply ih (index + 1) (updateArg cfg m arg2) cfg2 (some a2) n arg
                hrec _ h2 h3
              by_cases hnm : n = m
              · subst hnm
                rw [h1] at heq
                have ha : arg = a := Option.some.inj heq
                have hisnone : arg.value.isNone = false := by
                  cases hv : arg.value with
                  | none => rw [hv] at h3; simp at h3
                  | some w => simp
                rw [← ha, hisnone, h2] at happ
                simp at happ
                rw [← happ]
                simp only [updateArg]
                exact assocLookup_update_self cfg.args n arg arg h1
              · simp only [updateArg]
                rw [assocLookup_update_ne cfg.args m n _ hnm]
                exact h1

/-- Flag resolution writes only to the flag store, never to the positional
arguments. -/
theorem resolveFlag_args (cfg : CommandConfig) (v : String)
    (r : CommandConfig × String × Flag × Bool)
    (h : resolveFlag cfg v = .ok r) : r.1.args = cfg.args := by
  simp only [resolveFlag] at h
  repeat' (split at h)
  all_goals simp_all [updateFlag]
  all_goals (subst h; rfl)

/-- Flag-token processing writes only to the flag store, never to the
positional arguments. -/
theorem processFlagToken_args (cfg cfg' : CommandConfig) (v : String)
    (rest : List String) (c : Bool)
    (h : processFlagToken cfg v rest = .ok (cfg', c)) : cfg'.args = cfg.args := by
  simp only [processFlagToken] at h
  split at h
  · exact absurd h (by simp)
  · rename_i cfg1 lname flag isBool hres
    have hargs := resolveFlag_args cfg v _ hres
    repeat' (split at h)
    all_goals simp_all [updateFlag]
    all_goals (rw [← h.1])

/-- Positional-token processing never changes an already-bound non-variadic
argument. -/
theorem processArgToken_preserve (cfg cfg' : CommandConfig) (v n : String)
    (arg : Arg) (h : processArgToken cfg v = .ok cfg')
    (h1 : assocLookup cfg.args n = some arg)
    (h2 : arg.isVariadic = false) (h3 : arg.value.isSome = true) :
    assocLookup cfg'.args n = some arg := by
  simp only [processArgToken] at h
  split at h
  · exact absurd h (by simp)
  · exact absurd h (by simp)
  · rename_i cfg2 a hloop
    split at h
    · exact absurd h (by simp)
    · simp only [Except.ok.injEq] at h
      rw [← h]
      exact argTokenLoop_preserve v cfg.argNames.length cfg.argNames 0 cfg cfg2
        (some a) n arg hloop h1 h2 h3

/-- The main parse loop, run on any token list, never changes an
already-bound non-variadic positional argument (induction on a length
bound of the token list). -/
theorem parseLoop_preserve (N : Nat) :
    ∀ (toks : List String), toks.length ≤ N →
    ∀ (cfg cfg' : CommandConfig) (n : String) (arg : Arg),
      parseLoop cfg toks = .ok cfg' →
      assocLookup cfg.args n = some arg → arg.isVariadic = false →
      arg.value.isSome = true →
      assocLookup cfg'.args n = some arg := by
  induction N with
  | zero =>
    intro toks hl cfg cfg' n arg h h1 h2 h3
    have ht : toks = [] := List.length_eq_zero.mp (Nat.le_zero.mp hl)
    subst ht
    simp only [parseLoop, Except.ok.injEq] at h
    rw [← h]
    exact h1
  | succ N ih =>
    intro toks hl cfg cfg' n arg h h1 h2 h3
    cases toks with
    | nil =>
      simp only [parseLoop, Except.ok.injEq] at h
      rw [← h]
      exact h1
    | cons v rest =>
      have hrl : rest.length ≤ N := by
        simp only [List.length_cons] at hl
        omega
      simp only [parseLoop] at h
      split at h
      · simp only [Except.ok.injEq] at h
        rw [← h]
        exact h1
      · split at h
        · split at h
          · exact absurd h (by simp)
          · rename_i cfga consumed hflag
            have hargs := processFlagToken_args cfg cfga v rest consumed hflag
            have h1' : assocLookup cfga.args n = some arg := by
              rw [hargs]
              exact h1
            split at h
            · split at h
              · simp only [Except.ok.injEq] at h
                rw [← h]
                exact h1'
              · rename_i w rest'
                have hrl' : rest'.length ≤ N := by
                  simp only [List.length_cons] at hl
                  omega
                exact ih rest' hrl' cfga cfg' n arg h h1' h2 h3
            · exact ih rest hrl cfga cfg' n arg h h1' h2 h3
        · split at h
          · exact absurd h (by simp)
          · rename_i cfga harg
            have h1' := processArgToken_preserve cfg cfga v n arg harg h1 h2 h3
            exact ih rest hrl cfga cfg' n arg h h1' h2 h3

/-- C9 amended: during one parse, a non-variadic POSITIONAL argument is
written at most once — once bound, no later token of the same parse
changes its value.  (Flags do not enjoy this property: a repeated flag is
rebound, the last occurrence winning, as the counterexample shows.) -/
theorem C9_amended (cfg cfg' : CommandConfig) (toks : List String)
    (n : String) (arg : Arg) (h : parseLoop cfg toks = .ok cfg')
    (h1 : assocLookup cfg.args n = some arg)
    (h2 : arg.isVariadic = false) (h3 : arg.value.isSome = true) :
    assocLookup cfg'.args n = some arg :=
  parseLoop_preserve toks.length toks (Nat.le_refl _) cfg cfg' n arg h h1 h2 h3

/-- C9 amended, witnessed: a bound scalar positional survives a parse that
feeds two further positional tokens through the binder. -/
theorem C9_amended_witness : assocLookup cfgBoundP.args "p" = some boundArgP :=
  C9_amended cfgBoundP cfgBoundP ["b", "c2"] "p" boundArgP rfl rfl rfl rfl

/-- Go-style split never yields an empty part list. -/
theorem splitOnChar_ne_nil (c : Char) (l : List Char) : splitOnChar c l ≠ [] := by
  cases l with
  | nil => simp [splitOnChar]
  | cons a t =>
    simp only [splitOnChar]
    cases hsp : splitOnChar c t with
    | nil => simp
    | cons hd tl =>
      by_cases hac : (a == c) = true <;> simp [hac]

/-- Splitting on a character that does not occur returns the whole list. -/
theorem splitOnChar_not_mem (c : Char) (l : List Char) (h : ¬(c ∈ l)) :
    splitOnChar c l = [l] := by
  induction l with
  | nil => rfl
  | cons a t ih =>
    have hat : ¬(c ∈ t) := fun hm => h (List.mem_cons_of_mem a hm)
    have hac : ¬(a = c) := fun he => h (by rw [he]; exact List.mem_cons_self c t)
    simp [splitOnChar, ih hat, hac]

/-- Splitting at the first separator occurrence peels off the clean head
segment. -/
theorem splitOnChar_append (c : Char) (xs ys : List Char) (h : ¬(c ∈ xs)) :
    splitOnChar c (xs ++ c :: ys) = xs :: splitOnChar c ys := by
  induction xs with
  | nil =>
    simp only [List.nil_append]
    cases hsp : splitOnChar c ys with
    | nil => exact absurd hsp (splitOnChar_ne_nil c ys)
    | cons hd tl => simp [splitOnChar, hsp]
  | cons a t ih =>
    have hat : ¬(c ∈ t) := fun hm => h (List.mem_cons_of_mem a hm)
    have hac : ¬(a = c) := fun he => h (by rw [he]; exact List.mem_cons_self c t)
    simp only [List.cons_append, splitOnChar, List.append_eq]
    rw [ih hat]
    simp [hac]

/-- Character decomposition of a `--name=value` assignment token. -/
theorem assign_data (f v : String) :
    ("--" ++ f ++ "=" ++ v).data = ('-' :: '-' :: f.data) ++ '=' :: v.data := by
  simp [String.data_append]

/-- Rebuilding a string from the characters of a `--`-prefixed name. -/
theorem mk_dd (f : String) : String.mk ('-' :: '-' :: f.data) = "--" ++ f := by
  apply String.ext
  simp [dd_data]

/-- Rebuilding a string from its own characters. -/
theorem mk_self (v : String) : String.mk v.data = v := by
  apply String.ext
  rfl

/-- A token without the `-` prefix has no `--` prefix either. -/
theorem goHasPfx_dd_of_d (v : String) (h : goHasPfx v "-" = false) :
    goHasPfx v "--" = false := by
  unfold goHasPfx at h ⊢
  cases hd : v.data with
  | nil => rfl
  | cons a t =>
    rw [hd] at h
    simp [List.isPrefixOf] at h ⊢
    intro hc
    exact absurd hc h

/-- Normalizing a non-flag token passes it through unchanged. -/
theorem formatToken_plain (v : String) (hv2 : goHasPfx v "-" = false) :
    formatToken v = [v] := by
  have hdd := goHasPfx_dd_of_d v hv2
  have hfl : isFlag v = false := by simp [isFlag, hv2]
  by_cases hc : containsChar v '=' = true
  · simp [formatToken, detectSplitCombined, hc, hfl]
  · simp at hc
    simp [formatToken, detectSplitCombined, hc, hdd, hv2, hfl]

/-- Normalizing a plain `--name` token (no `=`) passes it through. -/
theorem formatToken_ddflag (f : String) (hf : ¬('=' ∈ f.data)) :
    formatToken ("--" ++ f) = ["--" ++ f] := by
  have hc : containsChar ("--" ++ f) '=' = false := by
    simp [containsChar, dd_data]
    exact hf
  have hflag : isFlag ("--" ++ f) = true := by
    simp [isFlag, strLen, dd_data, goHasPfx, List.isPrefixOf]
  have hnotin : ¬('=' ∈ ("--" ++ f).data) := by
    simp [dd_data]
    exact hf
  have hns : hasNonSpace ("--" ++ f) = true := by
    simp [hasNonSpace, dd_data]
  simp only [formatToken, detectSplitCombined, hc, goHasPfx_dd_any,
    Bool.false_eq_true, if_false, if_true]
  simp only [List.flatMap_cons, List.flatMap_nil, hflag, if_true]
  rw [splitOnChar_not_mem '=' _ hnotin]
  simp only [List.map_cons, List.map_nil, mk_self]
  simp [mk_dd, hns]

/-- Normalizing a `--name=value` token splits it into the flag token and
the value token, provided neither piece contains `=` and the value is not
all spaces. -/
theorem formatToken_assign (f v : String) (hf : ¬('=' ∈ f.data))
    (hv1 : ¬('=' ∈ v.data)) (hv3 : hasNonSpace v = true) :
    formatToken ("--" ++ f ++ "=" ++ v) = ["--" ++ f, v] := by
  have hdata := assign_data f v
  have hcontains : containsChar ("--" ++ f ++ "=" ++ v) '=' = true := by
    simp [containsChar, hdata]
  have hflag : isFlag ("--" ++ f ++ "=" ++ v) = true := by
    simp [isFlag, strLen, goHasPfx, hdata, List.isPrefixOf]
  have hnotin : ¬('=' ∈ ('-' :: '-' :: f.data)) := by
    simp
    exact hf
  have hns1 : hasNonSpace (String.mk ('-' :: '-' :: f.data)) = true := by
    simp [hasNonSpace]
  have hns2 : hasNonSpace ("--" ++ f) = true := by
    simp [hasNonSpace, dd_data]
  simp only [formatToken, detectSplitCombined, hcontains, if_true]
  simp only [List.flatMap_cons, List.flatMap_nil, hflag, if_true]
  rw [hdata, splitOnChar_append '=' _ _ hnotin, splitOnChar_not_mem '=' _ hv1]
  simp [mk_dd, mk_self, hns1, hns2, hv3]

/-- Root-command detection looks only at the first token. -/
theorem isRootCommand_cons_congr (reg : Registry) (c : String)
    (l1 l2 : List String) :
    isRootCommand (c :: l1) reg = isRootCommand (c :: l2) reg := by
  simp only [isRootCommand]

/-- Token normalization distributes over the head of the vector. -/
theorem formatCommandValues_cons (v : String) (l : List String) :
    formatCommandValues (v :: l) = formatToken v ++ formatCommandValues l := by
  simp [formatCommandValues]

/-- Two token vectors with the same head and normalization-equal tails
parse identically. -/
theorem Parse_cons_congr (reg : Registry) (c : String) (l1 l2 : List String)
    (h : formatCommandValues l1 = formatCommandValues l2) :
    Parse reg (c :: l1) = Parse reg (c :: l2) := by
  have hroot := isRootCommand_cons_congr reg c l1 l2
  have hfmt : formatCommandValues (c :: l1) = formatCommandValues (c :: l2) := by
    rw [formatCommandValues_cons, formatCommandValues_cons, h]
  by_cases hr : isRootCommand (c :: l1) reg = true
  · have hr2 : isRootCommand (c :: l2) reg = true := by rw [← hroot]; exact hr
    simp only [Parse, hr, hr2, if_true, hfmt]
  · have hr2 : isRootCommand (c :: l2) reg = false := by
      rw [← hroot]
      exact Bool.not_eq_true _ ▸ hr
    rw [Bool.not_eq_true] at hr
    simp only [Parse, hr, hr2, Bool.false_eq_true, if_false, List.headD_cons,
      List.tail_cons, h]

/-- C8 amended: `--flag=value` and `--flag value` bind identically for a
non-boolean flag PROVIDED the value string contains no `=`, has some
non-space character, and does not begin with `-`; under those conditions
the two spellings normalize to the same token stream inside any
surrounding token vector, so the whole parse agrees.  (The counterexample
shows the equivalence fails when the value contains `=`.) -/
theorem C8_amended (f v : String) (hf : ¬('=' ∈ f.data))
    (hv1 : ¬('=' ∈ v.data)) (hv2 : goHasPfx v "-" = false)
    (hv3 : hasNonSpace v = true) (reg : Registry) (c : String)
    (pre post : List String) :
    Parse reg (c :: (pre ++ ("--" ++ f ++ "=" ++ v) :: post)) =
      Parse reg (c :: (pre ++ ("--" ++ f) :: v :: post)) := by
  apply Parse_cons_congr
  simp only [formatCommandValues, List.flatMap_append, List.flatMap_cons]
  rw [formatToken_assign f v hf hv1 hv3, formatToken_ddflag f hf,
    formatToken_plain v hv2]
  simp

/-- C8 amended, witnessed on the `regC8` schema with the value `val`. -/
theorem C8_amended_witness :
    Parse regC8 ("c" :: ([] ++ ("--" ++ "f" ++ "=" ++ "val") :: [])) =
      Parse regC8 ("c" :: ([] ++ ("--" ++ "f") :: "val" :: [])) :=
  C8_amended "f" "val" (by decide) (by decide) rfl rfl regC8 "c" [] []

end Clapper
